import Mathlib

/-!
Shallow embedding of the prion-survey-application repository.

The embedding covers:
* `server.js` — the public consent-collection endpoint (`/api/submit`);
* `services/csvService.js` — CSV reading, record search/sort, authentication;
* `connecting-prion-server.js` — the login and document routes;
* `services/dropboxService.js` — the Document Reference Store guards;
* `services/backup-service.js` — local backup cleanup;
* the Token Cache policy, which is documented (docs/BACKUPS.md) but whose
  implementation file is not part of the sources; it is modelled from the spec.
-/

namespace PrionSurvey

/-! ## Embedding of `server.js` (consent-collection endpoint) -/

/-- A row of the `responses` SQLite table (`server.js` lines 39-47):
`participant_id` is the TEXT PRIMARY KEY. -/
structure RespRecord where
  participant_id : String
  response : String
  ts_utc : String
  ip : String
  user_agent : Option String
deriving DecidableEq, Repr

/-- The `responses` table, in insertion order. -/
abbrev ResponsesTable := List RespRecord

/-- `VALID_RESPONSES` (`server.js` line 138). -/
def VALID_RESPONSES : List String := ["acepto", "necesito_mas_info", "rechazo"]

/-- The character class of `idRegex = /^[A-Za-z0-9_\-:.]{3,128}$/`
(`server.js` line 139). -/
def idAllowedChar (c : Char) : Bool :=
  c.isAlpha || c.isDigit || c = '_' || c = '-' || c = ':' || c = '.'

/-- `idRegex.test id`: between 3 and 128 characters, all from the allowed
character class. -/
def idRegexTest (id : String) : Bool :=
  3 ≤ id.length && id.length ≤ 128 && id.data.all idAllowedChar

/-- `validatePayload` (`server.js` lines 141-152). `submissionToken` is the
optional `SUBMISSION_TOKEN` environment variable (`none` when unset, matching
the JS falsiness guard). Returns `some` error message exactly when the payload
is rejected. -/
def validatePayload (submissionToken : Option String)
    (response id : String) (token : Option String) : Option String :=
  if response = "" || !(VALID_RESPONSES.contains response) then
    some "Parametro response invalido (use: acepto | necesito_mas_info | rechazo)."
  else if id = "" || !(idRegexTest id) then
    some "Parametro id invalido (alfanumerico, _ - : . , 3-128 chars)."
  else
    match submissionToken with
    | some t => if token = some t then none else some "Token de envio invalido."
    | none => none

/-- `getStmt.get(id)`: `SELECT * FROM responses WHERE participant_id = ?`. -/
def getStmt (st : ResponsesTable) (id : String) : Option RespRecord :=
  st.find? (fun r => r.participant_id == id)

/-- Errors raised by the SQLite engine on insert. -/
inductive SqliteError
  | constraintPrimaryKey
  | other (msg : String)
deriving DecidableEq, Repr

/-- `insertStmt.run(record)`: the PRIMARY KEY uniqueness constraint on
`participant_id` is checked by the engine at write time; inserting a duplicate
key raises `SQLITE_CONSTRAINT_PRIMARYKEY`, otherwise the row is appended. -/
def insertStmt (st : ResponsesTable) (record : RespRecord) :
    Except SqliteError ResponsesTable :=
  if st.any (fun r => r.participant_id == record.participant_id) then
    .error .constraintPrimaryKey
  else
    .ok (st ++ [record])

/-- The responses the `/api/submit` handlers can produce, tagged with their
HTTP status codes. -/
inductive ApiResponse
  | badRequest (error : String)
  | conflict (error : String)
  | serverError (error : String)
  | okJson (message : String) (ts : String)
  | redirect (target : String)
deriving DecidableEq, Repr

/-- The HTTP status code of each response (`res.redirect` defaults to 302). -/
def ApiResponse.status : ApiResponse → Nat
  | .badRequest _ => 400
  | .conflict _ => 409
  | .serverError _ => 500
  | .okJson _ _ => 200
  | .redirect _ => 302

/-- UTF-8 encoding of a single character, as a list of byte values. -/
def utf8Bytes (c : Char) : List Nat :=
  let n := c.toNat
  if n < 0x80 then [n]
  else if n < 0x800 then [0xC0 + n / 0x40, 0x80 + n % 0x40]
  else if n < 0x10000 then
    [0xE0 + n / 0x1000, 0x80 + n / 0x40 % 0x40, 0x80 + n % 0x40]
  else
    [0xF0 + n / 0x40000, 0x80 + n / 0x1000 % 0x40, 0x80 + n / 0x40 % 0x40, 0x80 + n % 0x40]

/-- Upper-case hexadecimal digit for a value below 16. -/
def hexDigit (n : Nat) : Char :=
  if n < 10 then Char.ofNat (48 + n) else Char.ofNat (55 + n)

/-- The characters `encodeURIComponent` leaves unescaped
(alphanumerics and `- _ . ! ~ * ' ( )`). -/
def uriUnreserved (c : Char) : Bool :=
  c.isAlpha || c.isDigit || c = '-' || c = '_' || c = '.' || c = '!' ||
  c = '~' || c = '*' || c = Char.ofNat 39 || c = '(' || c = ')'

/-- JavaScript's `encodeURIComponent`: unreserved characters pass through,
everything else is percent-encoded byte by byte of its UTF-8 form. -/
def encodeURIComponent (s : String) : String :=
  ⟨s.data.flatMap (fun c =>
    if uriUnreserved c then [c]
    else (utf8Bytes c).flatMap (fun b => ['%', hexDigit (b / 16), hexDigit (b % 16)]))⟩

/-- The `POST /api/submit` handler (`server.js` lines 160-194). `ts`, `ip` and
`ua` are the request timestamp, `req.ip`, and `req.get('user-agent') || null`.
The email notification after a successful insert does not touch the table and
its errors are swallowed, so it is omitted. Returns the updated table and the
HTTP response. -/
def postSubmit (submissionToken : Option String) (st : ResponsesTable)
    (response id : String) (token : Option String)
    (ts ip : String) (ua : Option String) : ResponsesTable × ApiResponse :=
  match validatePayload submissionToken response id token with
  | some err => (st, .badRequest err)
  | none =>
    match getStmt st id with
    | some _ => (st, .conflict "Ya existe una respuesta para este participante")
    | none =>
      let record : RespRecord := ⟨id, response, ts, ip, ua⟩
      match insertStmt st record with
      | .error .constraintPrimaryKey =>
          (st, .conflict "Ya existe una respuesta para este participante")
      | .error (.other _) => (st, .serverError "Error de servidor")
      | .ok st2 => (st2, .okJson "Respuesta registrada" ts)

/-- The `GET /api/submit` handler (`server.js` lines 197-232): identical to the
POST handler except that on success it redirects to the confirmation page. -/
def getSubmit (submissionToken : Option String) (st : ResponsesTable)
    (response id : String) (token : Option String)
    (ts ip : String) (ua : Option String) : ResponsesTable × ApiResponse :=
  match validatePayload submissionToken response id token with
  | some err => (st, .badRequest err)
  | none =>
    match getStmt st id with
    | some _ => (st, .conflict "Ya existe una respuesta para este participante")
    | none =>
      let record : RespRecord := ⟨id, response, ts, ip, ua⟩
      match insertStmt st record with
      | .error .constraintPrimaryKey =>
          (st, .conflict "Ya existe una respuesta para este participante")
      | .error (.other _) => (st, .serverError "Error de servidor")
      | .ok st2 =>
          (st2, .redirect ("/response.html?status=ok&response=" ++ encodeURIComponent response))

/-- The HTTP method of a submission. -/
inductive Method
  | post
  | get
deriving DecidableEq, Repr

/-- One `/api/submit` request together with its request-context data. -/
structure SubmitRequest where
  method : Method
  response : String
  id : String
  token : Option String
  ts : String
  ip : String
  ua : Option String

/-- Dispatch a submission to the handler for its method. -/
def handleSubmit (submissionToken : Option String) (st : ResponsesTable)
    (r : SubmitRequest) : ResponsesTable × ApiResponse :=
  match r.method with
  | .post => postSubmit submissionToken st r.response r.id r.token r.ts r.ip r.ua
  | .get => getSubmit submissionToken st r.response r.id r.token r.ts r.ip r.ua

/-- Run a sequence of `/api/submit` requests against the table. -/
def processRequests (submissionToken : Option String) (st : ResponsesTable) :
    List SubmitRequest → ResponsesTable
  | [] => st
  | r :: rs => processRequests submissionToken (handleSubmit submissionToken st r).1 rs

/-- The multiset of participant identifiers stored in the table. -/
def tableKeys (st : ResponsesTable) : List String := st.map (·.participant_id)

/-- A submit handler either leaves the table unchanged or appends the new
record, and in the latter case the new participant id was not yet a key. -/
theorem postSubmit_fst_cases (tok : Option String) (st : ResponsesTable)
    (resp id : String) (token : Option String) (ts ip : String) (ua : Option String) :
    (postSubmit tok st resp id token ts ip ua).1 = st ∨
      ((postSubmit tok st resp id token ts ip ua).1 = st ++ [⟨id, resp, ts, ip, ua⟩] ∧
        id ∉ tableKeys st) := by
  unfold postSubmit
  cases hv : validatePayload tok resp id token with
  | some err => exact Or.inl rfl
  | none =>
    cases hg : getStmt st id with
    | some r => exact Or.inl rfl
    | none =>
      unfold insertStmt
      by_cases ha : (st.any fun r => r.participant_id == id) = true
      · simp [ha]
      · simp only [if_neg ha]
        refine Or.inr ⟨trivial, ?_⟩
        intro hmem
        apply ha
        rw [List.any_eq_true]
        rcases List.mem_map.mp hmem with ⟨r, hr, hpid⟩
        exact ⟨r, hr, beq_iff_eq.mpr hpid⟩

/-- Same case analysis for the GET handler. -/
theorem getSubmit_fst_cases (tok : Option String) (st : ResponsesTable)
    (resp id : String) (token : Option String) (ts ip : String) (ua : Option String) :
    (getSubmit tok st resp id token ts ip ua).1 = st ∨
      ((getSubmit tok st resp id token ts ip ua).1 = st ++ [⟨id, resp, ts, ip, ua⟩] ∧
        id ∉ tableKeys st) := by
  unfold getSubmit
  cases hv : validatePayload tok resp id token with
  | some err => exact Or.inl rfl
  | none =>
    cases hg : getStmt st id with
    | some r => exact Or.inl rfl
    | none =>
      unfold insertStmt
      by_cases ha : (st.any fun r => r.participant_id == id) = true
      · simp [ha]
      · simp only [if_neg ha]
        refine Or.inr ⟨trivial, ?_⟩
        intro hmem
        apply ha
        rw [List.any_eq_true]
        rcases List.mem_map.mp hmem with ⟨r, hr, hpid⟩
        exact ⟨r, hr, beq_iff_eq.mpr hpid⟩

/-- Each single `/api/submit` request preserves distinctness of the stored
participant identifiers. -/
theorem handleSubmit_preserves_nodup (tok : Option String) (st : ResponsesTable)
    (r : SubmitRequest) (h : (tableKeys st).Nodup) :
    (tableKeys (handleSubmit tok st r).1).Nodup := by
  have hcases :
      (handleSubmit tok st r).1 = st ∨
        ((handleSubmit tok st r).1 = st ++ [⟨r.id, r.response, r.ts, r.ip, r.ua⟩] ∧
          r.id ∉ tableKeys st) := by
    cases hm : r.method with
    | post =>
      simpa [handleSubmit, hm] using
        postSubmit_fst_cases tok st r.response r.id r.token r.ts r.ip r.ua
    | get =>
      simpa [handleSubmit, hm] using
        getSubmit_fst_cases tok st r.response r.id r.token r.ts r.ip r.ua
  rcases hcases with heq | ⟨heq, hnot⟩
  · rw [heq]; exact h
  · rw [heq]
    simp only [tableKeys, List.map_append, List.map_cons, List.map_nil]
    rw [List.nodup_append]
    exact ⟨h, List.nodup_singleton _, by
      intro a ha hb
      rcases List.mem_singleton.mp hb with rfl
      exact hnot ha⟩

/-- **C1**: At most one consent record exists per participant identifier. For
every sequence of `/api/submit` requests (POST or GET), starting from a table
whose participant identifiers are pairwise distinct, the `responses` table
never ends up with two records sharing a `participant_id`: the uniqueness is
enforced at write time by the PRIMARY KEY check inside `insertStmt` (and the
handlers additionally pre-check with `getStmt`). -/
theorem c1_unique_participant_id (tok : Option String) (st : ResponsesTable)
    (reqs : List SubmitRequest) (h : (tableKeys st).Nodup) :
    (tableKeys (processRequests tok st reqs)).Nodup := by
  induction reqs generalizing st with
  | nil => exact h
  | cons r rs ih =>
    exact ih _ (handleSubmit_preserves_nodup tok st r h)

/-- Witness for C1: two concrete requests with the same identifier, run
against the empty table, leave the keys duplicate-free. -/
theorem c1_unique_participant_id_witness :
    (tableKeys ([] : ResponsesTable)).Nodup ∧
      (tableKeys (processRequests none []
        [⟨.post, "acepto", "PART001", none, "t1", "ip1", none⟩,
         ⟨.get, "rechazo", "PART001", none, "t2", "ip2", none⟩])).Nodup := by
  constructor
  · exact List.nodup_nil
  · exact c1_unique_participant_id none [] _ List.nodup_nil

/-- An invalid participant id always makes `validatePayload` reject. -/
theorem validatePayload_ne_none_of_invalid_id (tok : Option String)
    (resp id : String) (token : Option String) (h : idRegexTest id = false) :
    validatePayload tok resp id token ≠ none := by
  unfold validatePayload
  split
  · simp
  · simp [h]

/-- **C4**: For every submission whose id fails the
`^[A-Za-z0-9_\-:.]{3,128}$` test, `/api/submit` (POST or GET) returns 400 and
the `responses` table is unchanged: validation happens before any write. -/
theorem c4_invalid_id_rejected_before_write (tok : Option String)
    (st : ResponsesTable) (r : SubmitRequest) (h : idRegexTest r.id = false) :
    (handleSubmit tok st r).2.status = 400 ∧ (handleSubmit tok st r).1 = st := by
  have hv := validatePayload_ne_none_of_invalid_id tok r.response r.id r.token h
  rcases Option.ne_none_iff_exists'.mp hv with ⟨msg, hmsg⟩
  cases hm : r.method with
  | post => simp [handleSubmit, hm, postSubmit, hmsg, ApiResponse.status]
  | get => simp [handleSubmit, hm, getSubmit, hmsg, ApiResponse.status]

/-- Witness for C4: the two-character id `"ab"` is rejected with 400 and the
table stays empty. -/
theorem c4_invalid_id_rejected_before_write_witness :
    idRegexTest "ab" = false ∧
      (handleSubmit none [] ⟨.post, "acepto", "ab", none, "t", "ip", none⟩).2.status = 400 ∧
      (handleSubmit none [] ⟨.post, "acepto", "ab", none, "t", "ip", none⟩).1 = [] :=
  ⟨by decide, c4_invalid_id_rejected_before_write none [] _ (by decide)⟩

/-- A valid first submission via POST appends the record and answers
`200 {ok:true, message, ts}`. -/
theorem postSubmit_success (tok : Option String) (st : ResponsesTable)
    (resp id : String) (token : Option String) (ts ip : String) (ua : Option String)
    (h1 : validatePayload tok resp id token = none)
    (h3 : getStmt st id = none) :
    postSubmit tok st resp id token ts ip ua =
      (st ++ [⟨id, resp, ts, ip, ua⟩], .okJson "Respuesta registrada" ts) := by
  have hany : (st.any fun r => r.participant_id == id) = false := by
    rw [List.any_eq_false]
    intro r hr
    have := List.find?_eq_none.mp h3 r hr
    simpa using this
  unfold postSubmit
  rw [h1, h3]
  simp [insertStmt, hany]

/-- A valid first submission via GET appends the record and redirects to the
confirmation page. -/
theorem getSubmit_success (tok : Option String) (st : ResponsesTable)
    (resp id : String) (token : Option String) (ts ip : String) (ua : Option String)
    (h1 : validatePayload tok resp id token = none)
    (h3 : getStmt st id = none) :
    getSubmit tok st resp id token ts ip ua =
      (st ++ [⟨id, resp, ts, ip, ua⟩],
        .redirect ("/response.html?status=ok&response=" ++ encodeURIComponent resp)) := by
  have hany : (st.any fun r => r.participant_id == id) = false := by
    rw [List.any_eq_false]
    intro r hr
    have := List.find?_eq_none.mp h3 r hr
    simpa using this
  unfold getSubmit
  rw [h1, h3]
  simp [insertStmt, hany]

/-- **C2 counterexample**: the claim asserts that a first submission via
`GET /api/submit` returns 200 with body `{ok:true, ts}`. On the concrete valid
pair `{response: "acepto", id: "ABC123"}` against the empty table, the GET
handler instead issues a 302 redirect to the confirmation page. -/
theorem c2_first_get_not_200_counterexample :
    validatePayload none "acepto" "ABC123" none = none ∧
      getStmt [] "ABC123" = none ∧
      (getSubmit none [] "acepto" "ABC123" none "2025-01-01T00:00:00.000Z"
          "127.0.0.1" none).2 =
        .redirect "/response.html?status=ok&response=acepto" ∧
      (getSubmit none [] "acepto" "ABC123" none "2025-01-01T00:00:00.000Z"
          "127.0.0.1" none).2.status ≠ 200 := by
  refine ⟨by decide, by decide, by decide, by decide⟩

/-- **C2 (amended)**: for every valid `{response, id}` pair, a first POST
submission returns `200 {ok:true, ts}`, a first GET submission responds with a
302 redirect to the confirmation page, and a second submission with the same
id — via either method, with any valid response value — returns 409. -/
theorem c2_submit_once_then_conflict (tok : Option String) (st : ResponsesTable)
    (r1 r2 id : String) (tk1 tk2 : Option String)
    (ts1 ts2 ip1 ip2 : String) (ua1 ua2 : Option String)
    (h1 : validatePayload tok r1 id tk1 = none)
    (h2 : validatePayload tok r2 id tk2 = none)
    (h3 : getStmt st id = none) :
    (postSubmit tok st r1 id tk1 ts1 ip1 ua1).2 = .okJson "Respuesta registrada" ts1 ∧
      (getSubmit tok st r1 id tk1 ts1 ip1 ua1).2 =
        .redirect ("/response.html?status=ok&response=" ++ encodeURIComponent r1) ∧
      ∀ m1 m2 : Method,
        (handleSubmit tok (handleSubmit tok st ⟨m1, r1, id, tk1, ts1, ip1, ua1⟩).1
          ⟨m2, r2, id, tk2, ts2, ip2, ua2⟩).2.status = 409 := by
  refine ⟨by rw [postSubmit_success tok st r1 id tk1 ts1 ip1 ua1 h1 h3],
    by rw [getSubmit_success tok st r1 id tk1 ts1 ip1 ua1 h1 h3], ?_⟩
  intro m1 m2
  have hst1 : (handleSubmit tok st ⟨m1, r1, id, tk1, ts1, ip1, ua1⟩).1 =
      st ++ [⟨id, r1, ts1, ip1, ua1⟩] := by
    cases m1 with
    | post => simp [handleSubmit, postSubmit_success tok st r1 id tk1 ts1 ip1 ua1 h1 h3]
    | get => simp [handleSubmit, getSubmit_success tok st r1 id tk1 ts1 ip1 ua1 h1 h3]
  have hfind : getStmt (st ++ [⟨id, r1, ts1, ip1, ua1⟩]) id =
      some ⟨id, r1, ts1, ip1, ua1⟩ := by
    unfold getStmt at h3 ⊢
    rw [List.find?_append, h3]
    simp
  rw [hst1]
  cases m2 with
  | post => simp [handleSubmit, postSubmit, h2, hfind, ApiResponse.status]
  | get => simp [handleSubmit, getSubmit, h2, hfind, ApiResponse.status]

/-- Witness for the amended C2: a concrete valid pair submitted twice. -/
theorem c2_submit_once_then_conflict_witness :
    (postSubmit none [] "acepto" "PART042" none "t1" "ip1" none).2 =
        .okJson "Respuesta registrada" "t1" ∧
      (getSubmit none [] "acepto" "PART042" none "t1" "ip1" none).2 =
        .redirect ("/response.html?status=ok&response=" ++ encodeURIComponent "acepto") ∧
      ∀ m1 m2 : Method,
        (handleSubmit none (handleSubmit none [] ⟨m1, "acepto", "PART042", none, "t1", "ip1", none⟩).1
          ⟨m2, "rechazo", "PART042", none, "t2", "ip2", none⟩).2.status = 409 :=
  c2_submit_once_then_conflict none [] "acepto" "rechazo" "PART042" none none
    "t1" "t2" "ip1" "ip2" none none (by decide) (by decide) (by decide)

/-! ## Embedding of `services/csvService.js` -/

/-- A duck-typed record parsed from CSV: an ordered association list from
field name to string value (one entry per header). -/
abbrev Row := List (String × String)

/-- JavaScript property access `row[k]`: the value bound to the field name,
`none` when `undefined`. -/
def rowGet (row : Row) (k : String) : Option String :=
  (row.find? (fun kv => kv.1 == k)).map Prod.snd

/-- `String.prototype.toLowerCase()`. -/
def jsToLower (s : String) : String := ⟨s.data.map Char.toLower⟩

/-- `String.prototype.trim()`: strip whitespace from both ends. -/
def jsTrim (s : String) : String :=
  ⟨((s.data.dropWhile Char.isWhitespace).reverse.dropWhile Char.isWhitespace).reverse⟩

/-- Split on a single-character separator, as `String.prototype.split(sep)`
(splitting the empty string yields `[""]`, as in JavaScript). -/
def jsSplitCharAux (sep : Char) : List Char → List Char → List String
  | [], current => [⟨current⟩]
  | c :: rest, current =>
    if c = sep then ⟨current⟩ :: jsSplitCharAux sep rest []
    else jsSplitCharAux sep rest (current ++ [c])

/-- `s.split(sep)` for a one-character separator. -/
def jsSplitChar (s : String) (sep : Char) : List String :=
  jsSplitCharAux sep s.data []

/-- `String.prototype.includes(pat)`: substring test. -/
def jsIncludes (s pat : String) : Bool := decide (pat.data <:+: s.data)

/-- The loop of `parseCSVLine` (`csvService.js` lines 542-562): walk the
characters with the accumulated `values`, the `current` cell and the
`inQuotes` flag; quote characters toggle the flag and are dropped, commas
outside quotes split, and the final `current` is pushed at the end. -/
def parseCSVLineAux : List Char → List String → List Char → Bool → List String
  | [], values, current, _ => values ++ [⟨current⟩]
  | c :: rest, values, current, inQuotes =>
    if c = '"' then parseCSVLineAux rest values current (!inQuotes)
    else if c = ',' && !inQuotes then parseCSVLineAux rest (values ++ [⟨current⟩]) [] inQuotes
    else parseCSVLineAux rest values (current ++ [c]) inQuotes

/-- `parseCSVLine(line)`. -/
def parseCSVLine (line : String) : List String :=
  parseCSVLineAux line.data [] [] false

/-- The non-blank lines of the file: `content.split('\n').filter(l => l.trim())`. -/
def csvLines (content : String) : List String :=
  (jsSplitChar content (Char.ofNat 10)).filter (fun l => jsTrim l ≠ "")

/-- The header fields: `lines[0].split(',').map(h => h.trim())` (empty when the
file has no non-blank line). -/
def csvHeaders (content : String) : List String :=
  match csvLines content with
  | [] => []
  | header :: _ => (jsSplitChar header ',').map jsTrim

/-- `readCSV` (`csvService.js` lines 507-535), applied to the file content
(the file-system read and its error path are outside the model): parse each
data line, keep exactly the lines whose value count equals the header count,
and build each row by pairing headers with the trimmed values. -/
def readCSV (content : String) : List Row :=
  match csvLines content with
  | [] => []
  | header :: dataLines =>
    let headers := (jsSplitChar header ',').map jsTrim
    dataLines.foldl (fun data line =>
      let values := parseCSVLine line
      if values.length = headers.length then
        data ++ [headers.zip (values.map jsTrim)]
      else data) []

/-- Whether a record matches the search term with the code's predicate:
some field value, lowercased, contains `query.toLowerCase().trim()`.
(All values in the row model are strings, so the null/undefined guard of the
source is vacuous.) -/
def rowMatchesQuery (query : String) (individual : Row) : Bool :=
  (individual.map Prod.snd).any (fun value =>
    jsIncludes (jsToLower value) (jsTrim (jsToLower query)))

/-- `searchIndividuals` (`csvService.js` lines 570-584). -/
def searchIndividuals (individuals : List Row) (query : String) : List Row :=
  if query = "" || jsTrim query = "" then individuals
  else individuals.filter (rowMatchesQuery query)

/-- `authenticateUser` (`csvService.js` lines 639-651): linear scan for a
credential whose `user` and `password` fields strictly equal the submitted
values; on success the `password` property is removed by rest-destructuring. -/
def authenticateUser (credentials : List Row) (username password : String) :
    Option Row :=
  match credentials.find? (fun cred =>
      rowGet cred "user" == some username && rowGet cred "password" == some password) with
  | some user => some (user.filter (fun kv => !(kv.1 == "password")))
  | none => none

/-- A blank (or all-whitespace) query short-circuits the search. -/
theorem searchIndividuals_blank (inds : List Row) (q : String)
    (h : jsTrim q = "") : searchIndividuals inds q = inds := by
  unfold searchIndividuals
  simp [h]

/-- A non-blank query filters with the code's match predicate. -/
theorem searchIndividuals_nonblank (inds : List Row) (q : String)
    (h : jsTrim q ≠ "") :
    searchIndividuals inds q = inds.filter (rowMatchesQuery q) := by
  have hq : q ≠ "" := by
    intro he
    exact h (by rw [he]; rfl)
  unfold searchIndividuals
  simp [hq, h]

/-- **C7**: searching with an all-whitespace query returns the full set
unchanged; a non-blank search returns exactly the records some of whose field
values contain the lowercased, trimmed query; and when exactly one record
matches, the result is exactly that record. -/
theorem c7_search_individuals :
    (∀ (inds : List Row) (q : String), jsTrim q = "" →
      searchIndividuals inds q = inds) ∧
    (∀ (inds : List Row) (q : String) (r : Row), jsTrim q ≠ "" →
      (r ∈ searchIndividuals inds q ↔ r ∈ inds ∧ rowMatchesQuery q r = true)) ∧
    (∀ (pre post : List Row) (r : Row) (q : String), jsTrim q ≠ "" →
      rowMatchesQuery q r = true →
      (∀ x ∈ pre, rowMatchesQuery q x = false) →
      (∀ x ∈ post, rowMatchesQuery q x = false) →
      searchIndividuals (pre ++ r :: post) q = [r]) := by
  refine ⟨searchIndividuals_blank, ?_, ?_⟩
  · intro inds q r h
    rw [searchIndividuals_nonblank inds q h]
    exact List.mem_filter
  · intro pre post r q h hr hpre hpost
    rw [searchIndividuals_nonblank _ q h, List.filter_append]
    have h1 : pre.filter (rowMatchesQuery q) = [] := by
      rw [List.filter_eq_nil_iff]
      intro a ha
      simp [hpre a ha]
    have h2 : post.filter (rowMatchesQuery q) = [] := by
      rw [List.filter_eq_nil_iff]
      intro a ha
      simp [hpost a ha]
    rw [h1, List.filter_cons, h2]
    simp [hr]

/-- Witness for C7: a whitespace query returns both records; the query
`"fo"` (matching only the record with value `"Foo"`) returns exactly it. -/
theorem c7_search_individuals_witness :
    searchIndividuals [[("a", "Foo")], [("a", "bar")]] "  " =
        [[("a", "Foo")], [("a", "bar")]] ∧
      searchIndividuals [[("a", "Foo")], [("a", "bar")]] "fo" = [[("a", "Foo")]] :=
  ⟨c7_search_individuals.1 _ _ (by decide),
    c7_search_individuals.2.2 [] [[("a", "bar")]] [("a", "Foo")] "fo"
      (by decide) (by decide) (by decide) (by decide)⟩

/-- The accumulating loop of `readCSV`, described as filter-then-map. -/
theorem readCSV_foldl (headers : List String) (ls : List String) (acc : List Row) :
    ls.foldl (fun data line =>
        let values := parseCSVLine line
        if values.length = headers.length then
          data ++ [headers.zip (values.map jsTrim)]
        else data) acc =
      acc ++ ((ls.filter (fun l => (parseCSVLine l).length = headers.length)).map
        (fun l => headers.zip ((parseCSVLine l).map jsTrim))) := by
  induction ls generalizing acc with
  | nil => simp
  | cons l ls ih =>
    by_cases h : (parseCSVLine l).length = headers.length
    · simp [List.filter_cons, h, ih]
    · simp [List.filter_cons, h, ih]

/-- **C10**: `readCSV` keeps exactly the data lines whose parsed value count
equals the header count — mismatched lines are silently omitted, never raising
an error or producing a partial row — and every returned row has exactly the
header fields as its keys, in order. -/
theorem c10_readCSV_row_shape (content : String) :
    readCSV content =
        (((csvLines content).drop 1).filter
          (fun l => (parseCSVLine l).length = (csvHeaders content).length)).map
          (fun l => (csvHeaders content).zip ((parseCSVLine l).map jsTrim)) ∧
      ∀ row ∈ readCSV content, row.map Prod.fst = csvHeaders content := by
  have h1 : readCSV content =
      (((csvLines content).drop 1).filter
        (fun l => (parseCSVLine l).length = (csvHeaders content).length)).map
        (fun l => (csvHeaders content).zip ((parseCSVLine l).map jsTrim)) := by
    cases hcl : csvLines content with
    | nil => simp [readCSV, hcl]
    | cons header rest =>
      have hh : csvHeaders content = (jsSplitChar header ',').map jsTrim := by
        simp [csvHeaders, hcl]
      simp only [readCSV, hcl, readCSV_foldl, List.nil_append, List.drop_succ_cons,
        List.drop_zero, hh]
  refine ⟨h1, ?_⟩
  intro row hrow
  rw [h1] at hrow
  rcases List.mem_map.mp hrow with ⟨l, hl, rfl⟩
  have hlen := of_decide_eq_true (List.mem_filter.mp hl).2
  exact List.map_fst_zip _ _ (by rw [List.length_map, hlen])

/-- Witness for C10: a file whose second data line has three values for two
headers; that line is dropped and the surviving row's keys are the headers. -/
theorem c10_readCSV_row_shape_witness :
    readCSV "a, b\n1,2\n3,4,5" = [[("a", "1"), ("b", "2")]] ∧
      ([("a", "1"), ("b", "2")] : Row).map Prod.fst = csvHeaders "a, b\n1,2\n3,4,5" :=
  ⟨by decide, (c10_readCSV_row_shape "a, b\n1,2\n3,4,5").2 _ (by decide)⟩

/-! ## Embedding of `connecting-prion-server.js` — `POST /api/login` -/

/-- The responses the login handler can produce. The 200 body is
`{success:true, user}` where `user` is the object literal built in the route;
a field can be `none` when the credential record lacks it (`undefined`). -/
inductive LoginResponse
  | badRequest (error : String)
  | unauthorized (error : String)
  | okUser (user : List (String × Option String))
  | serverError (error : String)
deriving DecidableEq, Repr

/-- HTTP status of each login response. -/
def LoginResponse.status : LoginResponse → Nat
  | .badRequest _ => 400
  | .unauthorized _ => 401
  | .okUser _ => 200
  | .serverError _ => 500

/-- The user object literal of the 200 branch (`connecting-prion-server.js`
lines 218-231): named fields copied from the authenticated record, with
`list: user.list || '1'`. -/
def loginUserView (user : Row) : List (String × Option String) :=
  [("id_credentials", rowGet user "id_credentials"),
   ("user", rowGet user "user"),
   ("lang", rowGet user "lang"),
   ("gender", rowGet user "gender"),
   ("name", rowGet user "name"),
   ("last_names", rowGet user "last_names"),
   ("full_name", rowGet user "full_name"),
   ("role", rowGet user "role"),
   ("list", some (match rowGet user "list" with
     | some v => if v = "" then "1" else v
     | none => "1"))]

/-- The `POST /api/login` handler (`connecting-prion-server.js` lines
203-240): missing/empty credentials give 400; otherwise `authenticateUser`
decides between setting `req.session.user` with a 200 reply and a 401 reply
that leaves the session untouched. -/
def loginRoute (credentials : List Row) (sessionUser : Option Row)
    (username password : String) : Option Row × LoginResponse :=
  if username = "" || password = "" then
    (sessionUser, .badRequest "Username and password required")
  else
    match authenticateUser credentials username password with
    | some user => (some user, .okUser (loginUserView user))
    | none => (sessionUser, .unauthorized "Invalid credentials")

/-- `authenticateUser` returns `none` exactly when no credential record has
both the matching `user` and the matching `password` (strict, case-sensitive
string equality). -/
theorem authenticateUser_eq_none_iff (credentials : List Row)
    (username password : String) :
    authenticateUser credentials username password = none ↔
      ∀ cred ∈ credentials,
        ¬(rowGet cred "user" = some username ∧
          rowGet cred "password" = some password) := by
  unfold authenticateUser
  cases hf : credentials.find? (fun cred =>
      rowGet cred "user" == some username && rowGet cred "password" == some password) with
  | none =>
    simp only [true_iff]
    intro cred hc hmatch
    have := List.find?_eq_none.mp hf cred hc
    simp [hmatch.1, hmatch.2] at this
  | some user =>
    have hmem := List.mem_of_find?_eq_some hf
    have hpred := List.find?_some hf
    simp only [Bool.and_eq_true, beq_iff_eq] at hpred
    constructor
    · intro h
      exact absurd h (by simp)
    · intro hall
      exact absurd ⟨hpred.1, hpred.2⟩ (hall user hmem)

/-- **C6 counterexample**: the claim says a login with a wrong password
returns 401. With the concrete credential store containing only
`alice / secret`, the submitted password `""` matches no record — it is a
wrong password — yet the route answers 400, not 401 (the emptiness check runs
before authentication). -/
theorem c6_empty_password_counterexample :
    (∀ cred ∈ [[("user", "alice"), ("password", "secret")]],
        ¬(rowGet cred "user" = some "alice" ∧ rowGet cred "password" = some "")) ∧
      (loginRoute [[("user", "alice"), ("password", "secret")]] none "alice" "").2.status = 400 ∧
      (loginRoute [[("user", "alice"), ("password", "secret")]] none "alice" "").2.status ≠ 401 := by
  refine ⟨by decide, by decide, by decide⟩

/-- **C6 (amended)**: provided the submitted username and password are both
non-empty (empty values are rejected with 400 before authentication is even
attempted), a login with a wrong password — no credential record matching both
fields case-sensitively — returns 401 and leaves the session user unchanged,
while a login with a correct username/password pair returns 200 with
`success:true` and a user object that contains no password field, and stores
the password-stripped record in the session. -/
theorem c6_login (credentials : List Row) (sessionUser : Option Row)
    (username password : String)
    (hu : username ≠ "") (hp : password ≠ "") :
    ((∀ cred ∈ credentials,
        ¬(rowGet cred "user" = some username ∧
          rowGet cred "password" = some password)) →
      (loginRoute credentials sessionUser username password).2.status = 401 ∧
        (loginRoute credentials sessionUser username password).1 = sessionUser) ∧
    (∀ user, authenticateUser credentials username password = some user →
      (loginRoute credentials sessionUser username password).2 =
          .okUser (loginUserView user) ∧
        (loginRoute credentials sessionUser username password).2.status = 200 ∧
        "password" ∉ (loginUserView user).map Prod.fst ∧
        (loginRoute credentials sessionUser username password).1 = some user) := by
  constructor
  · intro hnone
    have ha : authenticateUser credentials username password = none :=
      (authenticateUser_eq_none_iff credentials username password).mpr hnone
    simp [loginRoute, hu, hp, ha, LoginResponse.status]
  · intro user ha
    refine ⟨?_, ?_, ?_, ?_⟩ <;>
      simp [loginRoute, hu, hp, ha, LoginResponse.status, loginUserView]

/-- Witness for the amended C6: with the store `alice / secret`, the wrong
password `nope` gives 401 without touching the session, and the correct pair
gives 200 with a password-free user object. -/
theorem c6_login_witness :
    ((loginRoute [[("user", "alice"), ("password", "secret"), ("name", "A")]]
          none "alice" "nope").2.status = 401 ∧
      (loginRoute [[("user", "alice"), ("password", "secret"), ("name", "A")]]
          none "alice" "nope").1 = none) ∧
      ((loginRoute [[("user", "alice"), ("password", "secret"), ("name", "A")]]
          none "alice" "secret").2 =
          .okUser (loginUserView [("user", "alice"), ("name", "A")]) ∧
        (loginRoute [[("user", "alice"), ("password", "secret"), ("name", "A")]]
          none "alice" "secret").2.status = 200 ∧
        "password" ∉ (loginUserView [("user", "alice"), ("name", "A")]).map Prod.fst ∧
        (loginRoute [[("user", "alice"), ("password", "secret"), ("name", "A")]]
          none "alice" "secret").1 = some [("user", "alice"), ("name", "A")]) :=
  ⟨(c6_login [[("user", "alice"), ("password", "secret"), ("name", "A")]]
      none "alice" "nope" (by decide) (by decide)).1 (by decide),
    (c6_login [[("user", "alice"), ("password", "secret"), ("name", "A")]]
      none "alice" "secret" (by decide) (by decide)).2
      [("user", "alice"), ("name", "A")] (by decide)⟩

/-! ## Embedding of `services/backup-service.js` — `cleanOldBackups` -/

/-- `String.prototype.startsWith`. -/
def jsStartsWith (s pre : String) : Bool := pre.data.isPrefixOf s.data

/-- `String.prototype.endsWith`. -/
def jsEndsWith (s suf : String) : Bool := suf.data.reverse.isPrefixOf s.data.reverse

/-- A file of the backup directory: name and modification time
(`stats.mtimeMs`), in milliseconds. -/
structure BackupFile where
  name : String
  mtimeMs : Int
deriving DecidableEq, Repr

/-- The name filter of the cleanup loop:
`f.startsWith('data_') && f.endsWith('.db')`. -/
def isBackupFile (f : BackupFile) : Bool :=
  jsStartsWith f.name "data_" && jsEndsWith f.name ".db"

/-- The observable outcome of `cleanOldBackups`: the directory after the
deletions, and the reported counters. -/
structure CleanState where
  dir : List BackupFile
  deleted : Nat
  kept : Nat
deriving DecidableEq, Repr

/-- `cleanOldBackups(retentionDays)` (`backup-service.js` lines 77-116), with
the clock and the directory listing made explicit: `maxAge` is the retention
in milliseconds; every listed file whose name matches the backup pattern is
unlinked when its age `now - mtimeMs` exceeds `maxAge` (incrementing
`deleted`) and left in place otherwise (incrementing `kept`). -/
def cleanOldBackups (retentionDays now : Int) (dir : List BackupFile) : CleanState :=
  let maxAge := retentionDays * 24 * 60 * 60 * 1000
  let files := dir.filter isBackupFile
  files.foldl (fun st f =>
    if now - f.mtimeMs > maxAge then
      { st with dir := st.dir.filter (fun g => !(g.name == f.name)),
                deleted := st.deleted + 1 }
    else { st with kept := st.kept + 1 })
    ⟨dir, 0, 0⟩

/-- Unrolling the cleanup loop over an arbitrary iteration list. -/
theorem cleanOldBackups_foldl (maxAge now : Int) (files : List BackupFile)
    (d0 : List BackupFile) (del0 k0 : Nat) :
    files.foldl (fun st f =>
        if now - f.mtimeMs > maxAge then
          { st with dir := st.dir.filter (fun g => !(g.name == f.name)),
                    deleted := st.deleted + 1 }
        else { st with kept := st.kept + 1 })
      (⟨d0, del0, k0⟩ : CleanState) =
      ⟨d0.filter (fun g =>
          !(files.any (fun f => decide (now - f.mtimeMs > maxAge) && g.name == f.name))),
        del0 + (files.filter (fun f => now - f.mtimeMs > maxAge)).length,
        k0 + (files.filter (fun f => ¬(now - f.mtimeMs > maxAge))).length⟩ := by
  induction files generalizing d0 del0 k0 with
  | nil => simp
  | cons f fs ih =>
    by_cases h : now - f.mtimeMs > maxAge
    · rw [List.foldl_cons, if_pos h, ih]
      simp only [CleanState.mk.injEq]
      refine ⟨?_, ?_, ?_⟩
      · rw [List.filter_filter]
        apply List.filter_congr
        intro g _
        cases hgf : g.name == f.name <;>
          cases hany : fs.any (fun f => decide (now - f.mtimeMs > maxAge) && g.name == f.name) <;>
            simp [h, hgf, hany]
      · rw [List.filter_cons, if_pos (by simp; omega), List.length_cons]
        omega
      · rw [List.filter_cons, if_neg (by simp; omega)]
    · rw [List.foldl_cons, if_neg h, ih]
      simp only [CleanState.mk.injEq]
      refine ⟨?_, ?_, ?_⟩
      · apply List.filter_congr
        intro g _
        simp [h]
      · rw [List.filter_cons, if_neg (by simp; omega)]
      · rw [List.filter_cons, if_pos (by simp; omega), List.length_cons]
        omega

/-- **C9**: cleanup deletes exactly the backup-named files strictly older than
the retention window (age `now - mtimeMs` greater than `retentionDays` in
milliseconds), keeps every other file, and the reported `deleted`/`kept`
counters are the numbers of backup files deleted and kept. The hypothesis is
the file-system invariant that directory entries have distinct names. -/
theorem c9_clean_old_backups (retentionDays now : Int) (dir : List BackupFile)
    (hnames : (dir.map (·.name)).Nodup) :
    (cleanOldBackups retentionDays now dir).dir =
        dir.filter (fun f =>
          !(isBackupFile f &&
            decide (now - f.mtimeMs > retentionDays * 24 * 60 * 60 * 1000))) ∧
      (cleanOldBackups retentionDays now dir).deleted =
        (dir.filter (fun f =>
          isBackupFile f &&
            decide (now - f.mtimeMs > retentionDays * 24 * 60 * 60 * 1000))).length ∧
      (cleanOldBackups retentionDays now dir).kept =
        (dir.filter (fun f =>
          isBackupFile f &&
            !decide (now - f.mtimeMs > retentionDays * 24 * 60 * 60 * 1000))).length := by
  have hmain := cleanOldBackups_foldl (retentionDays * 24 * 60 * 60 * 1000) now
    (dir.filter isBackupFile) dir 0 0
  unfold cleanOldBackups
  simp only [hmain, Nat.zero_add]
  refine ⟨?_, ?_, ?_⟩
  · apply List.filter_congr
    intro g hg
    congr 1
    by_cases hbo : (isBackupFile g &&
        decide (now - g.mtimeMs > retentionDays * 24 * 60 * 60 * 1000)) = true
    · rw [hbo, List.any_eq_true]
      rw [Bool.and_eq_true] at hbo
      exact ⟨g, List.mem_filter.mpr ⟨hg, hbo.1⟩, by simp [hbo.2]⟩
    · rw [Bool.eq_false_iff.mpr hbo]
      rw [List.any_eq_false]
      intro f hf
      rw [Bool.and_eq_true, beq_iff_eq]
      rintro ⟨hold, hname⟩
      rcases List.mem_filter.mp hf with ⟨hfdir, hfback⟩
      have hfg : f = g := List.inj_on_of_nodup_map hnames hfdir hg hname.symm
      subst hfg
      exact hbo (by simp [hfback, hold])
  · rw [List.filter_filter]
    exact congrArg List.length (List.filter_congr fun a _ => Bool.and_comm _ _)
  · rw [List.filter_filter]
    exact congrArg List.length
      (List.filter_congr fun a _ => by rw [decide_not, Bool.and_comm])

/-- Witness for C9 — the spec's scenario: retention 7 days, one backup aged
10 days and one aged 3 days; exactly the old one is deleted and the counts
are 1 and 1. -/
theorem c9_clean_old_backups_witness :
    (cleanOldBackups 7 864000000
        [⟨"data_old.db", 0⟩, ⟨"data_new.db", 604800000⟩]).deleted = 1 ∧
      (cleanOldBackups 7 864000000
        [⟨"data_old.db", 0⟩, ⟨"data_new.db", 604800000⟩]).kept = 1 ∧
      (cleanOldBackups 7 864000000
        [⟨"data_old.db", 0⟩, ⟨"data_new.db", 604800000⟩]).dir =
        [⟨"data_new.db", 604800000⟩] := by
  have h := c9_clean_old_backups 7 864000000
    [⟨"data_old.db", 0⟩, ⟨"data_new.db", 604800000⟩] (by decide)
  refine ⟨?_, ?_, ?_⟩
  · rw [h.2.1]; decide
  · rw [h.2.2]; decide
  · rw [h.1]; decide

/-! ## Embedding of `services/dropboxService.js` (Document Reference Store) -/

/-- The three remote-storage OAuth secrets read from the environment
(`DROPBOX_APP_KEY`, `DROPBOX_APP_SECRET`, `DROPBOX_REFRESH_TOKEN`); `none`
models an unset (or empty, hence falsy) variable. -/
structure DropboxConfig where
  appKey : Option String
  appSecret : Option String
  refreshToken : Option String
deriving DecidableEq, Repr

/-- `initDropbox` (`dropboxService.js` lines 667-691): `false` when any of the
three secrets is missing, `true` once the client exists (client construction
does not fail for present secrets). -/
def initDropbox (cfg : DropboxConfig) : Bool :=
  if cfg.appKey.isNone || cfg.appSecret.isNone || cfg.refreshToken.isNone then false
  else true

/-- The value a successful upload resolves to. -/
structure UploadResult where
  dropboxPath : String
  shareUrl : String
  size : Nat
deriving DecidableEq, Repr

/-- The value `checkDocumentInDropbox` resolves to. -/
inductive CheckResult
  | notFound
  | found (filename shareUrl dropboxPath : String)
deriving DecidableEq, Repr

/-- The value a successful delete resolves to. -/
structure DeleteResult where
  path : String
deriving DecidableEq, Repr

/-- `uploadToDropbox` (`dropboxService.js` lines 699-769). A promise rejection
(a thrown `Error`) is modelled as `Except.error` with the error message; the
remote interaction of the configured case is abstracted by the `remote`
outcome (the body's try/catch logs and rethrows, so the outcome passes
through). With any secret missing, the function throws
`Error('Dropbox not configured')`. -/
def uploadToDropbox (cfg : DropboxConfig)
    (remote : Except String UploadResult) : Except String UploadResult :=
  if !(initDropbox cfg) then .error "Dropbox not configured"
  else remote

/-- `checkDocumentInDropbox` (`dropboxService.js` lines 776-867): with any
secret missing it returns the structured object `{exists: false}` without
throwing; when configured, the outcome of the remote search passes through. -/
def checkDocumentInDropbox (cfg : DropboxConfig)
    (remote : Except String CheckResult) : Except String CheckResult :=
  if !(initDropbox cfg) then .ok .notFound
  else remote

/-- `deleteFromDropbox` (`dropboxService.js` lines 874-928): with any secret
missing it throws `Error('Dropbox not configured')`. -/
def deleteFromDropbox (cfg : DropboxConfig)
    (remote : Except String DeleteResult) : Except String DeleteResult :=
  if !(initDropbox cfg) then .error "Dropbox not configured"
  else remote

/-- The responses of the `POST /api/upload-document` route. -/
inductive UploadRouteResponse
  | okDropbox (url : String)
  | okLocalFallback (url : String) (warning : String)
  | badRequest (error : String)
  | serverError (error : String)
deriving DecidableEq, Repr

/-- HTTP status of each upload-route response. -/
def UploadRouteResponse.status : UploadRouteResponse → Nat
  | .okDropbox _ => 200
  | .okLocalFallback _ _ => 200
  | .badRequest _ => 400
  | .serverError _ => 500

/-- The `POST /api/upload-document` handler (`connecting-prion-server.js`
lines 316-360): it catches a rejected `uploadToDropbox` and falls back to the
locally stored file, so a Dropbox failure never escapes the route. -/
def uploadDocumentRoute (cfg : DropboxConfig) (hasFile : Bool)
    (idOsakidetza : Option String) (filename : String)
    (remote : Except String UploadResult) : UploadRouteResponse :=
  if !hasFile then .badRequest "No file uploaded"
  else
    match idOsakidetza with
    | none => .badRequest "id_osakidetza is required"
    | some _ =>
      match uploadToDropbox cfg remote with
      | .ok r => .okDropbox r.shareUrl
      | .error _ =>
          .okLocalFallback ("/documents/" ++ filename)
            "Dropbox upload failed - file stored locally only"

/-- **C5 counterexample**: the claim says every Document Reference Store
operation fails with a structured failure object *rather than throwing* when
a secret is absent. With all three secrets absent, `uploadToDropbox` and
`deleteFromDropbox` throw `Error('Dropbox not configured')` (modelled as
`Except.error`), they do not return a structured failure object. -/
theorem c5_upload_throws_counterexample :
    uploadToDropbox ⟨none, none, none⟩ (.ok ⟨"/p", "u", 1⟩) =
        .error "Dropbox not configured" ∧
      deleteFromDropbox ⟨none, none, none⟩ (.ok ⟨"/p"⟩) =
        .error "Dropbox not configured" ∧
      checkDocumentInDropbox ⟨none, none, none⟩ (.ok (.found "f" "u" "/p")) =
        .ok .notFound := by
  refine ⟨rfl, rfl, rfl⟩

/-- **C5 (amended)**: when any of the three remote-storage secrets is absent,
`exists`/check returns the structured `{exists:false}` object without
throwing, while upload and delete throw `Error('Dropbox not configured')`;
the HTTP routes catch those errors — the upload route answers 200 with a
local-storage fallback — so the process is not terminated. -/
theorem c5_missing_secrets (cfg : DropboxConfig)
    (remoteU : Except String UploadResult) (remoteC : Except String CheckResult)
    (remoteD : Except String DeleteResult) (idOsakidetza filename : String)
    (h : cfg.appKey = none ∨ cfg.appSecret = none ∨ cfg.refreshToken = none) :
    uploadToDropbox cfg remoteU = .error "Dropbox not configured" ∧
      deleteFromDropbox cfg remoteD = .error "Dropbox not configured" ∧
      checkDocumentInDropbox cfg remoteC = .ok .notFound ∧
      uploadDocumentRoute cfg true (some idOsakidetza) filename remoteU =
        .okLocalFallback ("/documents/" ++ filename)
          "Dropbox upload failed - file stored locally only" ∧
      (uploadDocumentRoute cfg true (some idOsakidetza) filename remoteU).status
        = 200 := by
  have hinit : initDropbox cfg = false := by
    rcases h with h | h | h <;> simp [initDropbox, h]
  refine ⟨?_, ?_, ?_, ?_, ?_⟩ <;>
    simp [uploadToDropbox, deleteFromDropbox, checkDocumentInDropbox,
      uploadDocumentRoute, hinit, UploadRouteResponse.status]

/-- Witness for the amended C5: only the refresh token is missing. -/
theorem c5_missing_secrets_witness :
    uploadToDropbox ⟨some "k", some "s", none⟩ (.ok ⟨"/p", "u", 1⟩) =
        .error "Dropbox not configured" ∧
      deleteFromDropbox ⟨some "k", some "s", none⟩ (.ok ⟨"/p"⟩) =
        .error "Dropbox not configured" ∧
      checkDocumentInDropbox ⟨some "k", some "s", none⟩ (.ok (.found "f" "u" "/p")) =
        .ok .notFound ∧
      uploadDocumentRoute ⟨some "k", some "s", none⟩ true (some "TXPR001") "TXPR001.pdf"
          (.ok ⟨"/p", "u", 1⟩) =
        .okLocalFallback "/documents/TXPR001.pdf"
          "Dropbox upload failed - file stored locally only" ∧
      (uploadDocumentRoute ⟨some "k", some "s", none⟩ true (some "TXPR001") "TXPR001.pdf"
          (.ok ⟨"/p", "u", 1⟩)).status = 200 :=
  c5_missing_secrets ⟨some "k", some "s", none⟩ (.ok ⟨"/p", "u", 1⟩)
    (.ok (.found "f" "u" "/p")) (.ok ⟨"/p"⟩) "TXPR001" "TXPR001.pdf"
    (Or.inr (Or.inr rfl))

/-! ## The Token Cache (spec §4.1)

Modelled from the spec: the `get_valid_token()` operation of the Token Cache
is documented (spec §4.1; `docs/BACKUPS.md` changelog v1.1.0 describes the
implemented refresh system with its 5-minute buffer) but its implementation
file is not among the sources — `services/backup-service.js` uses a static
`DROPBOX_ACCESS_TOKEN` and `services/dropboxService.js` delegates refreshing
to the SDK. The definitions below follow the spec's words. -/

/-- BUFFER = 5 minutes, in milliseconds. -/
def BUFFER_MS : Int := 5 * 60 * 1000

/-- Default bearer lifetime when the refresh response omits one: 4 hours. -/
def DEFAULT_LIFETIME_MS : Int := 4 * 60 * 60 * 1000

/-- The cached access credential: an opaque bearer value and its absolute
expiry instant. -/
structure CachedToken where
  token : String
  expiresAt : Int
deriving DecidableEq, Repr

/-- The process-wide Token Cache state, initially empty. -/
structure TokenCache where
  cached : Option CachedToken
deriving DecidableEq, Repr

/-- The long-lived configuration secrets of the refresh exchange. -/
structure OAuthConfig where
  clientId : Option String
  clientSecret : Option String
  refreshSecret : Option String
deriving DecidableEq, Repr

/-- What the remote authorization endpoint answers to a refresh exchange:
a bearer with an optional lifetime, or a failure. -/
inductive RefreshOutcome
  | success (accessToken : String) (expiresInMs : Option Int)
  | failure (msg : String)
deriving DecidableEq, Repr

/-- The errors of `get_valid_token`. -/
inductive TokenError
  | configurationError
  | tokenRefreshError (msg : String)
deriving DecidableEq, Repr

/-- A returned bearer, with the flag telling whether it came from the refresh
exchange just performed. -/
structure TokenResult where
  bearer : String
  fresh : Bool
deriving DecidableEq, Repr

/-- Modelled from the spec: `get_valid_token()` (spec §4.1). Fails with
`ConfigurationError` when a secret is absent; refreshes when the token is
absent or `now() > expires_at - BUFFER`, storing the returned bearer with
`expires_at = now() + returned_lifetime` (default 4 hours); on refresh
failure propagates `TokenRefreshError` leaving the cache untouched; otherwise
returns the cached bearer. -/
def get_valid_token (cfg : OAuthConfig) (st : TokenCache) (now : Int)
    (exchange : RefreshOutcome) : TokenCache × Except TokenError TokenResult :=
  if cfg.clientId = none ∨ cfg.clientSecret = none ∨ cfg.refreshSecret = none then
    (st, .error .configurationError)
  else
    match st.cached with
    | some c =>
      if now > c.expiresAt - BUFFER_MS then
        match exchange with
        | .success tok lifetime =>
            (⟨some ⟨tok, now + lifetime.getD DEFAULT_LIFETIME_MS⟩⟩, .ok ⟨tok, true⟩)
        | .failure msg => (st, .error (.tokenRefreshError msg))
      else
        (st, .ok ⟨c.token, false⟩)
    | none =>
      match exchange with
      | .success tok lifetime =>
          (⟨some ⟨tok, now + lifetime.getD DEFAULT_LIFETIME_MS⟩⟩, .ok ⟨tok, true⟩)
      | .failure msg => (st, .error (.tokenRefreshError msg))

/-- **C3**: whenever the cached token is absent or within the 5-minute buffer
of its expiry, any bearer `get_valid_token` returns comes from the freshly
executed refresh exchange; and — provided the exchange's returned lifetime is
at least the buffer, as the spec's 4-hour default and the remote endpoint's
4-hour tokens are — every returned bearer is cached with an expiry at least
`BUFFER` past `now`, i.e. it is never a value known to expire within the
buffer. -/
theorem c3_get_valid_token (cfg : OAuthConfig) (st : TokenCache) (now : Int)
    (exchange : RefreshOutcome)
    (hlife : ∀ t l, exchange = .success t l → BUFFER_MS ≤ l.getD DEFAULT_LIFETIME_MS) :
    ((st.cached = none ∨ ∃ c, st.cached = some c ∧ now > c.expiresAt - BUFFER_MS) →
      ∀ res, (get_valid_token cfg st now exchange).2 = .ok res →
        res.fresh = true ∧ ∃ l, exchange = .success res.bearer l) ∧
    (∀ res, (get_valid_token cfg st now exchange).2 = .ok res →
      ∃ c, (get_valid_token cfg st now exchange).1.cached = some c ∧
        c.token = res.bearer ∧ now + BUFFER_MS ≤ c.expiresAt) := by
  by_cases hcfg : cfg.clientId = none ∨ cfg.clientSecret = none ∨ cfg.refreshSecret = none
  · constructor
    · intro _ res hres
      simp [get_valid_token, hcfg] at hres
    · intro res hres
      simp [get_valid_token, hcfg] at hres
  · cases hcach : st.cached with
    | none =>
      cases hex : exchange with
      | success tok lifetime =>
        have hl := hlife tok lifetime hex
        constructor
        · intro _ res hres
          simp [get_valid_token, hcfg, hcach] at hres
          cases hres
          exact ⟨rfl, lifetime, rfl⟩
        · intro res hres
          simp [get_valid_token, hcfg, hcach] at hres
          cases hres
          refine ⟨⟨tok, now + lifetime.getD DEFAULT_LIFETIME_MS⟩, ?_, rfl,
            by show now + BUFFER_MS ≤ now + lifetime.getD DEFAULT_LIFETIME_MS; omega⟩
          simp [get_valid_token, hcfg, hcach]
      | failure msg =>
        constructor
        · intro _ res hres
          simp [get_valid_token, hcfg, hcach] at hres
        · intro res hres
          simp [get_valid_token, hcfg, hcach] at hres
    | some c =>
      by_cases hstale : now > c.expiresAt - BUFFER_MS
      · cases hex : exchange with
        | success tok lifetime =>
          have hl := hlife tok lifetime hex
          constructor
          · intro _ res hres
            simp [get_valid_token, hcfg, hcach, hstale] at hres
            cases hres
            exact ⟨rfl, lifetime, rfl⟩
          · intro res hres
            simp [get_valid_token, hcfg, hcach, hstale] at hres
            cases hres
            refine ⟨⟨tok, now + lifetime.getD DEFAULT_LIFETIME_MS⟩, ?_, rfl,
              by show now + BUFFER_MS ≤ now + lifetime.getD DEFAULT_LIFETIME_MS; omega⟩
            simp [get_valid_token, hcfg, hcach, hstale]
        | failure msg =>
          constructor
          · intro _ res hres
            simp [get_valid_token, hcfg, hcach, hstale] at hres
          · intro res hres
            simp [get_valid_token, hcfg, hcach, hstale] at hres
      · constructor
        · intro hstl res hres
          rcases hstl with hnone | ⟨c', hc', hstl⟩
          · cases hnone
          · injection hc' with h
            subst h
            exact absurd hstl hstale
        · intro res hres
          simp [get_valid_token, hcfg, hcach, hstale] at hres
          cases hres
          exact ⟨c, by simp [get_valid_token, hcfg, hcach, hstale], rfl, by omega⟩

/-- Witness for C3: empty cache, configured secrets, a refresh answering a
bearer with no explicit lifetime; the result is the fresh bearer cached with
the 4-hour default expiry. -/
theorem c3_get_valid_token_witness :
    ((get_valid_token ⟨some "k", some "s", some "r"⟩ ⟨none⟩ 0
          (.success "tok" none)).2 = .ok ⟨"tok", true⟩) ∧
      (∃ c, (get_valid_token ⟨some "k", some "s", some "r"⟩ ⟨none⟩ 0
          (.success "tok" none)).1.cached = some c ∧
        c.token = "tok" ∧ (0 : Int) + BUFFER_MS ≤ c.expiresAt) :=
  ⟨rfl,
    (c3_get_valid_token ⟨some "k", some "s", some "r"⟩ ⟨none⟩ 0
      (.success "tok" none)
      (by intro t l h; cases h; decide)).2 ⟨"tok", true⟩ rfl⟩

/-! ## `sortIndividuals` (`csvService.js` lines 593-616) -/

/-- Value of a digit string, most significant first. -/
def digitsToNat (ds : List Char) : Nat :=
  ds.foldl (fun acc c => acc * 10 + (c.toNat - 48)) 0

/-- JavaScript's `parseFloat`, on the fragment the records use: skip leading
whitespace, optional sign, decimal digits with an optional fraction part, and
ignore any trailing junk; `none` models `NaN` (no digit found). Exponents and
the `Infinity` literals are outside the model. -/
def parseFloat (s : String) : Option ℚ :=
  let t := s.data.dropWhile Char.isWhitespace
  let signed : ℚ × List Char :=
    match t with
    | c :: rest => if c = '-' then (-1, rest) else if c = '+' then (1, rest) else (1, t)
    | [] => (1, [])
  let intPart := signed.2.takeWhile Char.isDigit
  let rest := signed.2.drop intPart.length
  let fracPart :=
    match rest with
    | c :: r2 => if c = '.' then r2.takeWhile Char.isDigit else []
    | [] => []
  if intPart = [] && fracPart = [] then none
  else
    some (signed.1 *
      ((digitsToNat intPart : ℚ) + (digitsToNat fracPart : ℚ) / (10 : ℚ) ^ fracPart.length))

/-- The comparator passed to `sort` in `sortIndividuals`: read the field with
`a[field] || ''`, try `parseFloat` on both sides; numeric difference when both
parse, otherwise sign-coded lexicographic comparison of the lowercased
strings (`direction` selects the order). Only the sign of the result
matters. -/
def sortCompare (field direction : String) (a b : Row) : ℚ :=
  match parseFloat ((rowGet a field).getD ""), parseFloat ((rowGet b field).getD "") with
  | some x, some y => if direction = "asc" then x - y else y - x
  | _, _ =>
    if direction = "asc" then
      if jsToLower ((rowGet a field).getD "") < jsToLower ((rowGet b field).getD "") then -1
      else if jsToLower ((rowGet b field).getD "") < jsToLower ((rowGet a field).getD "") then 1
      else 0
    else
      if jsToLower ((rowGet b field).getD "") < jsToLower ((rowGet a field).getD "") then -1
      else if jsToLower ((rowGet a field).getD "") < jsToLower ((rowGet b field).getD "") then 1
      else 0

/-- `sortIndividuals(individuals, field, direction)`: `[...individuals]`
sorted by the comparator; `Array.prototype.sort` with this comparator is
modelled as a comparison sort (insertion sort) ordered by
`comparator ≤ 0`. -/
def sortIndividuals (individuals : List Row) (field direction : String) : List Row :=
  List.insertionSort (fun a b => sortCompare field direction a b ≤ 0) individuals

/-- The parsed numeric key of a record's field (0 for a non-parsing value;
only used under the hypothesis that the value parses). -/
def numKey (field : String) (x : Row) : ℚ :=
  (parseFloat ((rowGet x field).getD "")).getD 0

/-- `orderedInsert` only queries the relation between the inserted element
and the list members, so relations agreeing there insert identically. -/
theorem orderedInsert_congr {α : Type} (r s : α → α → Prop)
    [DecidableRel r] [DecidableRel s] (a : α) (l : List α)
    (h : ∀ b ∈ l, (r a b ↔ s a b)) :
    List.orderedInsert r a l = List.orderedInsert s a l := by
  induction l with
  | nil => rfl
  | cons b l ih =>
    by_cases hr : r a b
    · rw [List.orderedInsert, List.orderedInsert, if_pos hr,
        if_pos ((h b (List.mem_cons_self b l)).mp hr)]
    · rw [List.orderedInsert, List.orderedInsert, if_neg hr,
        if_neg (fun hs => hr ((h b (List.mem_cons_self b l)).mpr hs)),
        ih (fun b' hb' => h b' (List.mem_cons_of_mem b hb'))]

/-- `insertionSort` only queries the relation between list members, so
relations agreeing on them sort identically. -/
theorem insertionSort_congr {α : Type} (r s : α → α → Prop)
    [DecidableRel r] [DecidableRel s] (l : List α)
    (h : ∀ a ∈ l, ∀ b ∈ l, (r a b ↔ s a b)) :
    List.insertionSort r l = List.insertionSort s l := by
  induction l with
  | nil => rfl
  | cons a l ih =>
    rw [List.insertionSort, List.insertionSort,
      ih (fun x hx y hy =>
        h x (List.mem_cons_of_mem a hx) y (List.mem_cons_of_mem a hy))]
    apply orderedInsert_congr
    intro b hb
    have hbl : b ∈ l := (List.perm_insertionSort s l).subset hb
    exact h a (List.mem_cons_self a l) b (List.mem_cons_of_mem a hbl)

/-- On records whose field value parses, the ascending comparator relation is
the numeric-key order. -/
theorem sortCompare_asc_iff (field : String) (a b : Row)
    (ha : (parseFloat ((rowGet a field).getD "")).isSome = true)
    (hb : (parseFloat ((rowGet b field).getD "")).isSome = true) :
    (sortCompare field "asc" a b ≤ 0) ↔ numKey field a ≤ numKey field b := by
  rcases Option.isSome_iff_exists.mp ha with ⟨x, hx⟩
  rcases Option.isSome_iff_exists.mp hb with ⟨y, hy⟩
  unfold sortCompare numKey
  rw [hx, hy]
  simp [sub_nonpos]

/-- On records whose field value parses, the descending comparator relation is
the reversed numeric-key order. -/
theorem sortCompare_desc_iff (field : String) (a b : Row)
    (ha : (parseFloat ((rowGet a field).getD "")).isSome = true)
    (hb : (parseFloat ((rowGet b field).getD "")).isSome = true) :
    (sortCompare field "desc" a b ≤ 0) ↔ numKey field b ≤ numKey field a := by
  rcases Option.isSome_iff_exists.mp ha with ⟨x, hx⟩
  rcases Option.isSome_iff_exists.mp hb with ⟨y, hy⟩
  unfold sortCompare numKey
  rw [hx, hy]
  simp [sub_nonpos]

/-- **C8**: on a list every one of whose records has a field value that parses
as a number, ascending sort yields a permutation whose parsed values are
non-decreasing and descending sort one whose parsed values are
non-increasing; and in general the comparator compares numerically exactly
when both sides parse, lexicographically (on the lowercased strings)
otherwise. -/
theorem c8_sort_individuals (inds : List Row) (field : String)
    (hall : ∀ x ∈ inds, (parseFloat ((rowGet x field).getD "")).isSome = true) :
    ((sortIndividuals inds field "asc").Perm inds ∧
      ((sortIndividuals inds field "asc").map (numKey field)).Pairwise (· ≤ ·)) ∧
    ((sortIndividuals inds field "desc").Perm inds ∧
      ((sortIndividuals inds field "desc").map (numKey field)).Pairwise
        (fun p q => q ≤ p)) ∧
    (∀ a b : Row,
      (parseFloat ((rowGet a field).getD "")).isSome = true →
      (parseFloat ((rowGet b field).getD "")).isSome = true →
      ((sortCompare field "asc" a b ≤ 0 ↔ numKey field a ≤ numKey field b) ∧
        (sortCompare field "desc" a b ≤ 0 ↔ numKey field b ≤ numKey field a))) ∧
    (∀ a b : Row,
      (parseFloat ((rowGet a field).getD "") = none ∨
        parseFloat ((rowGet b field).getD "") = none) →
      (sortCompare field "asc" a b ≤ 0 ↔
        jsToLower ((rowGet a field).getD "") ≤ jsToLower ((rowGet b field).getD ""))) := by
  have hasc : sortIndividuals inds field "asc" =
      List.insertionSort (fun a b => numKey field a ≤ numKey field b) inds := by
    apply insertionSort_congr
    intro a ha b hb
    exact sortCompare_asc_iff field a b (hall a ha) (hall b hb)
  have hdesc : sortIndividuals inds field "desc" =
      List.insertionSort (fun a b => numKey field b ≤ numKey field a) inds := by
    apply insertionSort_congr
    intro a ha b hb
    exact sortCompare_desc_iff field a b (hall a ha) (hall b hb)
  haveI : IsTotal Row (fun a b => numKey field a ≤ numKey field b) :=
    ⟨fun a b => le_total _ _⟩
  haveI : IsTrans Row (fun a b => numKey field a ≤ numKey field b) :=
    ⟨fun _ _ _ hab hbc => le_trans hab hbc⟩
  haveI : IsTotal Row (fun a b => numKey field b ≤ numKey field a) :=
    ⟨fun a b => le_total _ _⟩
  haveI : IsTrans Row (fun a b => numKey field b ≤ numKey field a) :=
    ⟨fun _ _ _ hab hbc => le_trans hbc hab⟩
  refine ⟨⟨?_, ?_⟩, ⟨?_, ?_⟩, ?_, ?_⟩
  · rw [hasc]; exact List.perm_insertionSort _ inds
  · rw [hasc, List.pairwise_map]
    exact List.sorted_insertionSort _ inds
  · rw [hdesc]; exact List.perm_insertionSort _ inds
  · rw [hdesc, List.pairwise_map]
    exact List.sorted_insertionSort _ inds
  · intro a b ha hb
    exact ⟨sortCompare_asc_iff field a b ha hb, sortCompare_desc_iff field a b ha hb⟩
  · intro a b hnone
    have hgoal : ∀ aV bV : String,
        ((if jsToLower aV < jsToLower bV then (-1 : ℚ)
          else if jsToLower bV < jsToLower aV then 1 else 0) ≤ 0 ↔
          jsToLower aV ≤ jsToLower bV) := by
      intro aV bV
      rcases lt_trichotomy (jsToLower aV) (jsToLower bV) with h | h | h
      · rw [if_pos h]
        exact iff_of_true (by norm_num) h.le
      · rw [if_neg (by simp [h]), if_neg (by simp [h])]
        exact iff_of_true le_rfl h.le
      · rw [if_neg (asymm h), if_pos h]
        exact iff_of_false (by norm_num) (not_le_of_lt h)
    unfold sortCompare
    cases hA : parseFloat ((rowGet a field).getD "") with
    | none =>
      cases hB : parseFloat ((rowGet b field).getD "") with
      | none => simpa using hgoal ((rowGet a field).getD "") ((rowGet b field).getD "")
      | some y => simpa using hgoal ((rowGet a field).getD "") ((rowGet b field).getD "")
    | some x =>
      cases hB : parseFloat ((rowGet b field).getD "") with
      | none => simpa using hgoal ((rowGet a field).getD "") ((rowGet b field).getD "")
      | some y =>
        exfalso
        rcases hnone with h | h
        · rw [hA] at h
          exact Option.some_ne_none x h
        · rw [hB] at h
          exact Option.some_ne_none y h

/-- Witness for C8: three records with numeric field values 10, 9 and 2; the
ascending sort is a permutation with non-decreasing parsed values (and
concretely equals the numerically ordered list). -/
theorem c8_sort_individuals_witness :
    (sortIndividuals [[("n", "10")], [("n", "9")], [("n", "2")]] "n" "asc").Perm
        [[("n", "10")], [("n", "9")], [("n", "2")]] ∧
      ((sortIndividuals [[("n", "10")], [("n", "9")], [("n", "2")]] "n" "asc").map
        (numKey "n")).Pairwise (· ≤ ·) ∧
      ((sortIndividuals [[("n", "10")], [("n", "9")], [("n", "2")]] "n" "desc").map
        (numKey "n")).Pairwise (fun p q => q ≤ p) :=
  ⟨(c8_sort_individuals [[("n", "10")], [("n", "9")], [("n", "2")]] "n"
      (by decide)).1.1,
    (c8_sort_individuals [[("n", "10")], [("n", "9")], [("n", "2")]] "n"
      (by decide)).1.2,
    (c8_sort_individuals [[("n", "10")], [("n", "9")], [("n", "2")]] "n"
      (by decide)).2.1.2⟩

end PrionSurvey
